import Mathlib

/-!
Shallow embedding of the `go-aws` HTTP-to-S3 adapter (package `controllers`,
file with `S3Properties` and its seven handlers), for checking the
natural-language specification against the code.

Modelling conventions:
* Go strings are Lean `String`s; `strings.HasSuffix` and `strconv.Atoi` are
  embedded below as `hasSuffix` and `atoi` over `String.data`.
* Each HTTP handler becomes a pure function from its decoded inputs and the
  results of its backend calls (given as `Except` oracle values) to a
  `HandlerResult`: the sequence of response writes performed on the
  `http.ResponseWriter` plus the ordered trace of backend calls issued.
  A Go runtime panic (which terminates the handler with no write) is the
  `Outcome.goPanic` constructor.
* JSON request-body decoding is external (`encoding/json`); a handler
  receives `Option body`, where `none` is a non-decodable body.  Go's
  `Decode` leaves the target struct at its zero value when it fails, which
  the handlers that ignore the decode error observe via `Option.getD` of the
  zero-valued record.
* The storage backend itself is not part of this repository; for the rename
  claims its `CopyObject`/`DeleteObject` state semantics are modelled by a
  key-to-size association list (`Store`).
* Pointer-valued SDK fields (`*int32` part numbers, `*string` tags) are
  modelled twice.  `CompletedPart` carries values, i.e. well-formed
  descriptors, which is what the claims about descriptor lists quantify
  over.  `DecodedPart` keeps the pointers as `Option`s, because
  `encoding/json` leaves a missing `partNumber` field as a nil pointer and
  the finalizer's sort comparator (line 129) dereferences it, panicking the
  handler; `completeMultipartUploadP` is the finalizer at that decoded
  level and exhibits the panic.
* The single configured bucket name is constant across all calls and is
  omitted from the call trace, except for `CopyObject`, whose source string
  is literally built from it (`fmt.Sprintf("%s/%s", bucket, oldKey)`).
-/

namespace GoAws

/-- Embeds Go `strings.HasSuffix s suffix` via the character lists underlying
the strings. -/
def hasSuffix (s suffix : String) : Bool :=
  List.isSuffixOf suffix.data s.data

/-- Helper for `atoi`: folds decimal digits left to right, `none` on a
non-digit character or when no digit was seen. -/
def digitsToNat : List Char → Option Nat → Option Nat
  | [], acc => acc
  | c :: cs, acc =>
    if '0' ≤ c ∧ c ≤ '9' then
      match acc with
      | some n => digitsToNat cs (some (n * 10 + (c.toNat - '0'.toNat)))
      | none => digitsToNat cs (some (c.toNat - '0'.toNat))
    else none

/-- Embeds Go `strconv.Atoi`: an optional sign followed by at least one
decimal digit, `none` otherwise.  (Go's int-range overflow error is not
modelled; the claims only involve small values.) -/
def atoi (s : String) : Option Int :=
  match s.data with
  | [] => none
  | '-' :: rest => (digitsToNat rest none).map (fun n => -(n : Int))
  | '+' :: rest => (digitsToNat rest none).map (fun n => (n : Int))
  | l => (digitsToNat l none).map (fun n => (n : Int))

/-- Part descriptor `(eTag, partNumber)`, the two fields of
`types.CompletedPart` that this code reads and writes (the SDK's optional
checksum fields are never touched by the handlers). -/
structure CompletedPart where
  eTag : String
  partNumber : Int
deriving DecidableEq, Repr

/-- One `(signedUrl, partNumber)` entry of `interfaces.SignedUrl`. -/
structure SignedUrl where
  signedUrl : String
  partNumber : Int
deriving DecidableEq, Repr

/-- One `(key, size)` listing entry (`types.Object` restricted to the two
fields the `List` handler copies). -/
structure S3Object where
  key : String
  size : Int
deriving DecidableEq, Repr

/-- Success payloads that `interfaces.ApiResponse.Payload` carries across the
seven handlers. -/
inductive Payload where
  | initiated (id : String) (key : String)
  | signedUrls (urls : List SignedUrl)
  | completed (key : String) (size : Int)
  | objects (objs : List S3Object)
  | boolean (b : Bool)
  | url (u : String)
deriving DecidableEq, Repr

/-- One write on the `http.ResponseWriter`: either `http.Error` with a
message and status, or a JSON-encoded `ApiResponse` envelope. -/
inductive Write where
  | httpError (msg : String) (status : Nat)
  | apiResponse (status : Nat) (payload : Payload)
deriving DecidableEq, Repr

/-- How a handler invocation terminates: a sequence of response writes, or a
Go runtime panic (no write reaches the client). -/
inductive Outcome where
  | writes (ws : List Write)
  | goPanic (msg : String)
deriving DecidableEq, Repr

/-- Pointer-valued part descriptor exactly as `encoding/json` decodes one
entry of `parts` into `types.CompletedPart`: `ETag *string` and
`PartNumber *int32`, where a field the body omits stays a nil pointer
(`none`). -/
structure DecodedPart where
  eTag : Option String
  partNumber : Option Int
deriving DecidableEq, Repr

/-- One backend (SDK) call, with the arguments the handler passes. -/
inductive BackendCall where
  | createMultipartUpload (key : String)
  | presignUploadPart (key uploadId : String) (partNumber : Int) (expiresMinutes : Int)
  | completeMultipartUpload (key uploadId : String) (parts : List CompletedPart)
  | completeMultipartUploadPtr (key uploadId : String) (parts : List DecodedPart)
  | headObject (key : String)
  | listObjectsV2 (pfx delimiter : String)
  | deleteObject (key : String)
  | copyObject (copySource key : String)
  | presignGetObject (key disposition : String) (expiresSeconds : Int)
deriving DecidableEq, Repr

/-- Result of one handler invocation: its outcome and the ordered trace of
backend calls it issued. -/
structure HandlerResult where
  outcome : Outcome
  calls : List BackendCall
deriving DecidableEq, Repr

/-- Decoded body of `/initiate-multipart-upload` (`{fileName}`). -/
structure InitiateBody where
  fileName : String
deriving DecidableEq, Repr

/-- Decoded body of `/generate-presigned-urls` (`{fileKey, fileId, parts}`);
`parts` is a Go `int`. -/
structure GenerateBody where
  fileKey : String
  fileId : String
  parts : Int
deriving DecidableEq, Repr

/-- Decoded body of `/complete-multipart-upload`
(`{fileKey, fileId, parts}`). -/
structure CompleteBody where
  fileKey : String
  fileId : String
  parts : List CompletedPart
deriving DecidableEq, Repr

/-- Embeds `InitiateMultipartUpload`: the decode error is ignored (line 50 of
the controller), so a non-decodable body leaves the zero-valued struct and
the backend call is made with an empty key.  `createResult` is the backend's
`(UploadId, Key)` on success. -/
def initiateMultipartUpload (createResult : Except String (String × String))
    (body : Option InitiateBody) : HandlerResult :=
  let fileName := (body.getD ⟨""⟩).fileName
  let call := BackendCall.createMultipartUpload fileName
  match createResult with
  | .error e => ⟨.writes [.httpError e 500], [call]⟩
  | .ok (uploadId, key) => ⟨.writes [.apiResponse 200 (.initiated uploadId key)], [call]⟩

/-- Embeds the presign loop of `GeneratePresignedUrl`
(`for i := 1; i <= parts; i++`), issuing part numbers `i, i+1, ...` for `n`
iterations: returns the backend-call trace and either the first presign
error or the accumulated `SignedUrl` slice. -/
def presignFrom (presign : Int → Except String String) (key uploadId : String) :
    Int → Nat → List BackendCall × Except String (List SignedUrl)
  | _, 0 => ([], .ok [])
  | i, n + 1 =>
    match presign i with
    | .error e => ([.presignUploadPart key uploadId i 15], .error e)
    | .ok u =>
      match presignFrom presign key uploadId (i + 1) n with
      | (cs, .error e) => (.presignUploadPart key uploadId i 15 :: cs, .error e)
      | (cs, .ok us) => (.presignUploadPart key uploadId i 15 :: cs, .ok (⟨u, i⟩ :: us))

/-- Embeds `GeneratePresignedUrl`: a decode failure is checked (unlike the
other two body-reading handlers) and yields a 400 with no backend call;
`make([]interfaces.SignedUrl, parts)` panics when `parts` is negative;
otherwise parts `1..parts` are presigned in order, stopping at the first
backend error. -/
def generatePresignedUrl (presign : Int → Except String String)
    (body : Option GenerateBody) : HandlerResult :=
  match body with
  | none => ⟨.writes [.httpError "Invalid request payload" 400], []⟩
  | some b =>
    if b.parts < 0 then ⟨.goPanic "makeslice: len out of range", []⟩
    else
      match presignFrom presign b.fileKey b.fileId 1 b.parts.toNat with
      | (calls, .error e) =>
        ⟨.writes [.httpError ("Failed to generate presigned URL: " ++ e) 500], calls⟩
      | (calls, .ok urls) => ⟨.writes [.apiResponse 200 (.signedUrls urls)], calls⟩

/-- Ordering used by the finalizer's `sort.Slice` comparator:
`*parts[i].PartNumber < *parts[j].PartNumber`; its induced sortedness
relation. -/
def partLe (a b : CompletedPart) : Prop :=
  a.partNumber ≤ b.partNumber

instance : DecidableRel partLe :=
  fun a b => inferInstanceAs (Decidable (a.partNumber ≤ b.partNumber))

instance : IsTotal CompletedPart partLe :=
  ⟨fun a b => Int.le_total a.partNumber b.partNumber⟩

instance : IsTrans CompletedPart partLe :=
  ⟨fun _ _ _ hab hbc => le_trans hab hbc⟩

/-- Embeds the finalizer's `sort.Slice(parts, less-by-PartNumber)`: Go's
sort is an unspecified comparison sort; it is modelled by insertion sort,
which realises the same contract (a permutation ordered by `partLe`). -/
def sortParts (parts : List CompletedPart) : List CompletedPart :=
  List.insertionSort partLe parts

/-- Embeds `CompleteMultipartUpload`: the decode error is ignored (line 125),
so a non-decodable body proceeds with the zero-valued struct; the reported
parts are sorted by part number, converted field-by-field to the manifest,
and submitted; on completion success a `HeadObject` size lookup follows, and
its failure fails the whole request. -/
def completeMultipartUpload (completeResult : Except String Unit)
    (headResult : Except String Int) (body : Option CompleteBody) : HandlerResult :=
  let b := body.getD ⟨"", "", []⟩
  let completedParts := (sortParts b.parts).map (fun p => ⟨p.eTag, p.partNumber⟩)
  let completeCall := BackendCall.completeMultipartUpload b.fileKey b.fileId completedParts
  match completeResult with
  | .error e => ⟨.writes [.httpError e 500], [completeCall]⟩
  | .ok _ =>
    match headResult with
    | .error e => ⟨.writes [.httpError e 500], [completeCall, .headObject b.fileKey]⟩
    | .ok size =>
      ⟨.writes [.apiResponse 200 (.completed b.fileKey size)],
        [completeCall, .headObject b.fileKey]⟩

/-- Filter predicate of the `List` handler, line 195:
`(delimiter == "/" && strings.HasSuffix(*item.Key, "/")) ||
 (delimiter != "/" && !strings.HasSuffix(*item.Key, "/"))`. -/
def listKeep (delimiter : String) (item : S3Object) : Bool :=
  (decide (delimiter = "/") && hasSuffix item.key "/")
    || (decide (delimiter ≠ "/") && !(hasSuffix item.key "/"))

/-- Embeds the `List` handler: query the backend listing, then post-filter
the returned contents in order (the append loop over `resp.Contents`). -/
def listDocuments (listResult : Except String (List S3Object))
    (pfx delimiter : String) : HandlerResult :=
  let call := BackendCall.listObjectsV2 pfx delimiter
  match listResult with
  | .error e => ⟨.writes [.httpError e 500], [call]⟩
  | .ok contents =>
    ⟨.writes [.apiResponse 200 (.objects (contents.filter (listKeep delimiter)))], [call]⟩

/-- Embeds the `Remove` handler: one `DeleteObject` call, then `true`. -/
def removeDocument (deleteResult : Except String Unit) (fileKey : String) : HandlerResult :=
  let call := BackendCall.deleteObject fileKey
  match deleteResult with
  | .error e => ⟨.writes [.httpError e 500], [call]⟩
  | .ok _ => ⟨.writes [.apiResponse 200 (.boolean true)], [call]⟩

/-- Backend bucket state for the rename claims: an association list from key
to object (represented by its size).  The backend is an external
collaborator of this repository; only the presence/content of keys matters
here. -/
abbrev Store := List (String × Int)

/-- First binding of a key in the store. -/
def storeLookup : Store → String → Option Int
  | [], _ => none
  | (k2, v) :: rest, k => if k2 = k then some v else storeLookup rest k

/-- Removes every binding of a key. -/
def storeDelete : Store → String → Store
  | [], _ => []
  | (k2, v) :: rest, k =>
    if k2 = k then storeDelete rest k else (k2, v) :: storeDelete rest k

/-- Binds a key to a value, replacing prior bindings. -/
def storeSet (st : Store) (k : String) (v : Int) : Store :=
  (k, v) :: storeDelete st k

/-- Models the backend's `CopyObject` (external to this repository): when it
does not fail, the destination key becomes a copy of the source object; a
missing source is a backend error. -/
def copyObjectOp (fail : Bool) (st : Store) (src dst : String) : Except String Store :=
  if fail then .error "copy failed"
  else
    match storeLookup st src with
    | none => .error "NoSuchKey"
    | some v => .ok (storeSet st dst v)

/-- Models the backend's `DeleteObject` (external to this repository): when
it does not fail, the key is removed (deleting a missing key succeeds). -/
def deleteObjectOp (fail : Bool) (st : Store) (k : String) : Except String Store :=
  if fail then .error "delete failed" else .ok (storeDelete st k)

/-- Embeds the `Rename` handler: `CopyObject` with source
`fmt.Sprintf("%s/%s", bucket, oldFileKey)`, and only on copy success a
`DeleteObject` of the old key; returns the resulting backend state alongside
the handler result. -/
def rename (bucket : String) (copyFail deleteFail : Bool) (st : Store)
    (oldFileKey newFileKey : String) : Store × HandlerResult :=
  let copyCall := BackendCall.copyObject (bucket ++ "/" ++ oldFileKey) newFileKey
  match copyObjectOp copyFail st oldFileKey newFileKey with
  | .error e => (st, ⟨.writes [.httpError e 500], [copyCall]⟩)
  | .ok st1 =>
    match deleteObjectOp deleteFail st1 oldFileKey with
    | .error e =>
      (st1, ⟨.writes [.httpError e 500], [copyCall, .deleteObject oldFileKey]⟩)
    | .ok st2 =>
      (st2, ⟨.writes [.apiResponse 200 (.boolean true)], [copyCall, .deleteObject oldFileKey]⟩)

/-- Embeds the `Share` handler: reject an empty `fileKey`, then a
non-parsing or non-positive `expiresIn`, both before any backend call;
otherwise presign a `GetObject` with `ResponseContentDisposition =
"attachment"` and `Expires = expiresIn` seconds. -/
def share (presignResult : Except String String)
    (fileKey expiresInStr : String) : HandlerResult :=
  if fileKey = "" then ⟨.writes [.httpError "fileKey is required" 400], []⟩
  else
    match atoi expiresInStr with
    | none => ⟨.writes [.httpError "Invalid or missing expiresIn parameter" 400], []⟩
    | some expiresIn =>
      if expiresIn ≤ 0 then
        ⟨.writes [.httpError "Invalid or missing expiresIn parameter" 400], []⟩
      else
        let call := BackendCall.presignGetObject fileKey "attachment" expiresIn
        match presignResult with
        | .error e =>
          ⟨.writes [.httpError ("Failed to generate presigned URL: " ++ e) 500], [call]⟩
        | .ok url => ⟨.writes [.apiResponse 200 (.url url)], [call]⟩

/-- Ascending integer range `[i, i+1, ..., i+n-1]`, the spec-side shape of
the issued part numbers. -/
def intRange (i : Int) : Nat → List Int
  | 0 => []
  | n + 1 => i :: intRange (i + 1) n

/-- Spec-side `List` filter, following the spec's words: keep keys ending in
`/` exactly when the delimiter is `"/"`, otherwise keep keys not ending in
`/`. -/
def listSpecFilter (delimiter : String) (contents : List S3Object) : List S3Object :=
  contents.filter (fun item =>
    if delimiter = "/" then hasSuffix item.key "/" else !(hasSuffix item.key "/"))

/-- Decoded body of `/complete-multipart-upload` at pointer level, keeping
the nilability of the per-part fields. -/
structure CompleteBodyP where
  fileKey : String
  fileId : String
  parts : List DecodedPart
deriving DecidableEq, Repr

/-- Dereference of a `*int32` part number, as the line 129 comparator
`*requestBody.Parts[i].PartNumber` performs it: a nil pointer is the Go
runtime panic. -/
def derefPartNumber (p : DecodedPart) : Except String Int :=
  match p.partNumber with
  | none => .error "runtime error: invalid memory address or nil pointer dereference"
  | some n => .ok n

/-- Ordered insertion whose every comparison dereferences both part numbers,
mirroring the sort comparator; a nil dereference aborts the sort with the
panic. -/
def orderedInsertP (p : DecodedPart) : List DecodedPart → Except String (List DecodedPart)
  | [] => .ok [p]
  | q :: qs =>
    match derefPartNumber p with
    | .error e => .error e
    | .ok pn =>
      match derefPartNumber q with
      | .error e => .error e
      | .ok qn =>
        if pn ≤ qn then .ok (p :: q :: qs)
        else
          match orderedInsertP p qs with
          | .error e => .error e
          | .ok rest => .ok (q :: rest)

/-- The finalizer's `sort.Slice` at pointer level: a comparison sort whose
comparisons may hit a nil part number and panic.  Like any comparison sort,
it performs no comparison on lists of at most one element and at least one
comparison involving every element on longer lists. -/
def insertionSortP : List DecodedPart → Except String (List DecodedPart)
  | [] => .ok []
  | p :: rest =>
    match insertionSortP rest with
    | .error e => .error e
    | .ok sorted => orderedInsertP p sorted

/-- Embeds `CompleteMultipartUpload` at the decoded-JSON (pointer) level:
identical to `completeMultipartUpload` except that the reported parts keep
their nilable fields, so the sort can panic — terminating the handler with
no response write and no backend call, exactly as a Go panic inside
`sort.Slice` would. -/
def completeMultipartUploadP (completeResult : Except String Unit)
    (headResult : Except String Int) (body : Option CompleteBodyP) : HandlerResult :=
  let b := body.getD ⟨"", "", []⟩
  match insertionSortP b.parts with
  | .error e => ⟨.goPanic e, []⟩
  | .ok sorted =>
    let completedParts := sorted.map (fun p => DecodedPart.mk p.eTag p.partNumber)
    let completeCall :=
      BackendCall.completeMultipartUploadPtr b.fileKey b.fileId completedParts
    match completeResult with
    | .error e => ⟨.writes [.httpError e 500], [completeCall]⟩
    | .ok _ =>
      match headResult with
      | .error e => ⟨.writes [.httpError e 500], [completeCall, .headObject b.fileKey]⟩
      | .ok size =>
        ⟨.writes [.apiResponse 200 (.completed b.fileKey size)],
          [completeCall, .headObject b.fileKey]⟩

/-- C1: for every client-submitted list of part descriptors, the Upload
Finalizer's first backend call is the completion submission, and its manifest
is a permutation of the reported parts ordered ascending by `partNumber` —
i.e. the ascending-by-part-number sorting of the input. -/
theorem finalizer_submits_sorted_manifest (completeResult : Except String Unit)
    (headResult : Except String Int) (fileKey fileId : String)
    (parts : List CompletedPart) :
    ∃ manifest,
      (completeMultipartUpload completeResult headResult
        (some ⟨fileKey, fileId, parts⟩)).calls.head? =
        some (.completeMultipartUpload fileKey fileId manifest) ∧
      manifest.Perm parts ∧ manifest.Sorted partLe := by
  refine ⟨sortParts parts, ?_, List.perm_insertionSort partLe parts,
    List.sorted_insertionSort partLe parts⟩
  have hmap : (sortParts parts).map
      (fun p => (⟨p.eTag, p.partNumber⟩ : CompletedPart)) = sortParts parts := by
    simp
  cases completeResult with
  | error e => simp [completeMultipartUpload, hmap]
  | ok u => cases headResult <;> simp [completeMultipartUpload, hmap]

/-- C10: with `parts = 0` the Part URL Issuer does not fail: it writes a
single status-200 envelope whose payload is the empty array, and issues no
backend presign call. -/
theorem issuer_zero_parts_success_empty (presign : Int → Except String String)
    (fileKey fileId : String) :
    generatePresignedUrl presign (some ⟨fileKey, fileId, 0⟩) =
      ⟨.writes [.apiResponse 200 (.signedUrls [])], []⟩ := by
  simp [generatePresignedUrl, presignFrom]

/-- C6 counterexample: a non-decodable body sent to `InitiateMultipartUpload`
does not fail fast with a 400 — the decode error is ignored, a backend
`CreateMultipartUpload` call is made with the zero-valued (empty) key, and a
200 envelope is written when that call succeeds. -/
theorem initiate_malformed_no_fail_fast :
    initiateMultipartUpload (.ok ("uid", "key")) none =
      ⟨.writes [.apiResponse 200 (.initiated "uid" "key")],
        [.createMultipartUpload ""]⟩ := by
  rfl

/-- C6 amended: only `GeneratePresignedUrl` rejects a malformed body with a
400 and no backend call; `InitiateMultipartUpload` and
`CompleteMultipartUpload` ignore the decode failure and proceed to the
backend with zero-valued fields. -/
theorem malformed_body_fail_fast_only_issuer :
    (∀ presign : Int → Except String String,
      generatePresignedUrl presign none =
        ⟨.writes [.httpError "Invalid request payload" 400], []⟩) ∧
    (∀ createResult : Except String (String × String),
      (initiateMultipartUpload createResult none).calls =
        [.createMultipartUpload ""]) ∧
    (∀ (completeResult : Except String Unit) (headResult : Except String Int),
      (completeMultipartUpload completeResult headResult none).calls.head? =
        some (.completeMultipartUpload "" "" [])) := by
  refine ⟨fun presign => rfl, fun cr => ?_, fun cr hr => ?_⟩
  · cases cr with
    | error e => rfl
    | ok p => obtain ⟨uploadId, key⟩ := p; rfl
  · cases cr with
    | error e => rfl
    | ok u => cases hr <;> rfl

/-- C7 counterexample: a decodable request with `parts = -1` makes
`GeneratePresignedUrl` panic at `make([]interfaces.SignedUrl, parts)`, so
the handler terminates without writing any response. -/
theorem issuer_negative_parts_panics :
    generatePresignedUrl (fun _ => .ok "u") (some ⟨"k", "i", -1⟩) =
      ⟨.goPanic "makeslice: len out of range", []⟩ := by
  rfl

/-- The integer range `intRange i n` has length `n`. -/
theorem intRange_length (i : Int) (n : Nat) : (intRange i n).length = n := by
  induction n generalizing i with
  | zero => rfl
  | succ m ih => simp [intRange, ih]

/-- When the presign loop starting at part number `i` for `n` iterations
succeeds, the returned entries carry part numbers `i, i+1, ..., i+n-1` in
order. -/
theorem presignFrom_ok_partNumbers (presign : Int → Except String String)
    (key uploadId : String) :
    ∀ (n : Nat) (i : Int) (cs : List BackendCall) (us : List SignedUrl),
      presignFrom presign key uploadId i n = (cs, .ok us) →
      us.map (fun u => u.partNumber) = intRange i n := by
  intro n
  induction n with
  | zero =>
    intro i cs us h
    simp [presignFrom] at h
    simp [h.2, intRange]
  | succ m ih =>
    intro i cs us h
    rw [presignFrom] at h
    cases hp : presign i with
    | error e => rw [hp] at h; simp at h
    | ok u =>
      rw [hp] at h
      rcases hrec : presignFrom presign key uploadId (i + 1) m with ⟨cs2, r2⟩
      rw [hrec] at h
      cases r2 with
      | error e => simp at h
      | ok us2 =>
        simp at h
        rw [← h.2]
        simp [intRange, ih (i + 1) cs2 us2 (by rw [hrec])]

/-- C2: whenever the Part URL Issuer answers a request for `parts ≥ 1` with
a success envelope, the payload holds exactly `parts` entries whose part
numbers are `1, 2, ..., parts` in ascending order. -/
theorem issuer_returns_ascending_partNumbers (presign : Int → Except String String)
    (fileKey fileId : String) (parts : Int) (hp : 1 ≤ parts) (us : List SignedUrl)
    (h : (generatePresignedUrl presign (some ⟨fileKey, fileId, parts⟩)).outcome =
      .writes [.apiResponse 200 (.signedUrls us)]) :
    us.length = parts.toNat ∧
      us.map (fun u => u.partNumber) = intRange 1 parts.toNat := by
  have hnneg : ¬ parts < 0 := by omega
  rcases hres : presignFrom presign fileKey fileId 1 parts.toNat with ⟨cs, r⟩
  cases r with
  | error e => simp [generatePresignedUrl, hnneg, hres] at h
  | ok urls =>
    simp [generatePresignedUrl, hnneg, hres] at h
    have hmap := presignFrom_ok_partNumbers presign fileKey fileId parts.toNat 1 cs urls hres
    subst h
    refine ⟨?_, hmap⟩
    have := congrArg List.length hmap
    simpa [intRange_length] using this

/-- Witness for C2 at `parts = 2` with an always-succeeding presign
oracle. -/
theorem issuer_returns_ascending_partNumbers_witness :
    ([⟨"u", 1⟩, ⟨"u", 2⟩] : List SignedUrl).length = (2 : Int).toNat ∧
    ([⟨"u", 1⟩, ⟨"u", 2⟩] : List SignedUrl).map (fun u => u.partNumber) =
      intRange 1 (2 : Int).toNat :=
  issuer_returns_ascending_partNumbers (fun _ => .ok "u") "k" "i" 2 (by decide)
    [⟨"u", 1⟩, ⟨"u", 2⟩] (by decide)

/-- C3: the `List` handler returns exactly the backend entries selected by
the spec's delimiter rule (keys ending in `/` iff the delimiter is exactly
`"/"`), in backend order (the result is a sublist of the backend listing,
no re-sorting); the claim's two worked examples are included. -/
theorem list_post_filter (pfx delimiter : String) (contents : List S3Object) :
    (listDocuments (.ok contents) pfx delimiter).outcome =
      .writes [.apiResponse 200 (.objects (listSpecFilter delimiter contents))] ∧
    (listSpecFilter delimiter contents).Sublist contents ∧
    (listDocuments (.ok [⟨"a/", 0⟩, ⟨"a/b.txt", 1⟩, ⟨"c.txt", 2⟩]) "" "/").outcome =
      .writes [.apiResponse 200 (.objects [⟨"a/", 0⟩])] ∧
    (listDocuments (.ok [⟨"a/", 0⟩, ⟨"a/b.txt", 1⟩, ⟨"c.txt", 2⟩]) "" "").outcome =
      .writes [.apiResponse 200 (.objects [⟨"a/b.txt", 1⟩, ⟨"c.txt", 2⟩])] := by
  refine ⟨?_, List.filter_sublist _, by decide, by decide⟩
  have hpred : ∀ o ∈ contents, listKeep delimiter o =
      (if delimiter = "/" then hasSuffix o.key "/" else !(hasSuffix o.key "/")) := by
    intro o _
    by_cases hd : delimiter = "/" <;> simp [listKeep, hd]
  simp [listDocuments, listSpecFilter, List.filter_congr hpred]

/-- C4: any Share request whose `fileKey` is empty (missing) or whose
`expiresIn` fails to parse or parses to a non-positive value is rejected
with a 400 client error and an empty backend-call trace. -/
theorem share_rejects_invalid_input (presignResult : Except String String)
    (fileKey expiresInStr : String)
    (h : fileKey = "" ∨ atoi expiresInStr = none ∨
      ∃ n, atoi expiresInStr = some n ∧ n ≤ 0) :
    ∃ msg, share presignResult fileKey expiresInStr =
      ⟨.writes [.httpError msg 400], []⟩ := by
  by_cases hk : fileKey = ""
  · exact ⟨"fileKey is required", by simp [share, hk]⟩
  · refine ⟨"Invalid or missing expiresIn parameter", ?_⟩
    rcases h with h | h | ⟨n, hn, hle⟩
    · exact absurd h hk
    · simp [share, hk, h]
    · simp [share, hk, hn, hle]

/-- Witness for C4 at the claim's three inputs: `expiresIn=0`,
`expiresIn=-5`, and a missing (empty) `fileKey`. -/
theorem share_rejects_invalid_input_witness :
    (∃ msg, share (.ok "u") "k" "0" = ⟨.writes [.httpError msg 400], []⟩) ∧
    (∃ msg, share (.ok "u") "k" "-5" = ⟨.writes [.httpError msg 400], []⟩) ∧
    (∃ msg, share (.ok "u") "" "10" = ⟨.writes [.httpError msg 400], []⟩) :=
  ⟨share_rejects_invalid_input (.ok "u") "k" "0"
      (Or.inr (Or.inr ⟨0, by decide, by decide⟩)),
    share_rejects_invalid_input (.ok "u") "k" "-5"
      (Or.inr (Or.inr ⟨-5, by decide, by decide⟩)),
    share_rejects_invalid_input (.ok "u") "" "10" (Or.inl rfl)⟩

/-- C9: a validated Share request issues exactly one backend call — a
`GetObject` presign (read-only) with content disposition `"attachment"` and
expiry equal to the parsed `expiresIn` seconds — and on presign success
writes the signed URL in a 200 envelope. -/
theorem share_presign_attachment_expiry (presignResult : Except String String)
    (fileKey expiresInStr : String) (n : Int) (hk : fileKey ≠ "")
    (hn : atoi expiresInStr = some n) (hpos : 0 < n) :
    (share presignResult fileKey expiresInStr).calls =
      [.presignGetObject fileKey "attachment" n] ∧
    (∀ u, presignResult = .ok u →
      (share presignResult fileKey expiresInStr).outcome =
        .writes [.apiResponse 200 (.url u)]) := by
  have hnle : ¬ n ≤ 0 := by omega
  constructor
  · cases presignResult <;> simp [share, hk, hn, hnle]
  · intro u hu
    subst hu
    simp [share, hk, hn, hnle]

/-- Witness for C9 at `fileKey = "k"`, `expiresIn = "10"`. -/
theorem share_presign_attachment_expiry_witness :
    (share (.ok "https") "k" "10").calls =
      [.presignGetObject "k" "attachment" 10] ∧
    (share (.ok "https") "k" "10").outcome =
      .writes [.apiResponse 200 (.url "https")] :=
  ⟨(share_presign_attachment_expiry (.ok "https") "k" "10" 10 (by decide)
      (by decide) (by decide)).1,
    (share_presign_attachment_expiry (.ok "https") "k" "10" 10 (by decide)
      (by decide) (by decide)).2 "https" rfl⟩

/-- Deleting one key from the store leaves lookups of a different key
unchanged. -/
theorem storeLookup_storeDelete_ne (st : Store) (k k2 : String) (hne : k ≠ k2) :
    storeLookup (storeDelete st k2) k = storeLookup st k := by
  induction st with
  | nil => rfl
  | cons kv rest ih =>
    obtain ⟨k3, v⟩ := kv
    by_cases h3 : k3 = k2
    · have hx : ¬ k3 = k := fun e => hne (e ▸ h3)
      simp [storeDelete, storeLookup, h3, hx, ih, Ne.symm hne]
    · by_cases hk : k3 = k
      · simp [storeDelete, storeLookup, h3, hk, hne]
      · simp [storeDelete, storeLookup, h3, hk, ih]

/-- Setting a key to the value already bound at `k` preserves the lookup at
`k`. -/
theorem storeLookup_storeSet_same_value (st : Store) (k k2 : String) (v : Int)
    (h : storeLookup st k = some v) :
    storeLookup (storeSet st k2 v) k = some v := by
  by_cases hk : k2 = k
  · simp [storeSet, storeLookup, hk]
  · have hne : k ≠ k2 := fun e => hk e.symm
    simp [storeSet, storeLookup, hk, storeLookup_storeDelete_ne st k k2 hne, h]

/-- C5: Rename is copy-then-delete.  If the copy step errors, the handler
reports the error, issues no delete call, and the backend state (hence the
old key) is untouched.  If the copy succeeds and the delete step fails, the
handler reports the error and both the old and the new key are present,
bound to the copied object. -/
theorem rename_copy_then_delete (bucket oldFileKey newFileKey : String) (st : Store) :
    (∀ (copyFail deleteFail : Bool) (e : String),
      copyObjectOp copyFail st oldFileKey newFileKey = .error e →
      rename bucket copyFail deleteFail st oldFileKey newFileKey =
        (st, ⟨.writes [.httpError e 500],
          [.copyObject (bucket ++ "/" ++ oldFileKey) newFileKey]⟩)) ∧
    (∀ (copyFail : Bool) (st1 : Store) (v : Int),
      copyObjectOp copyFail st oldFileKey newFileKey = .ok st1 →
      storeLookup st oldFileKey = some v →
      rename bucket copyFail true st oldFileKey newFileKey =
        (st1, ⟨.writes [.httpError "delete failed" 500],
          [.copyObject (bucket ++ "/" ++ oldFileKey) newFileKey,
            .deleteObject oldFileKey]⟩) ∧
      storeLookup st1 oldFileKey = some v ∧
      storeLookup st1 newFileKey = some v) := by
  constructor
  · intro copyFail deleteFail e hcopy
    simp [rename, hcopy]
  · intro copyFail st1 v hcopy hv
    have hst1 : st1 = storeSet st newFileKey v := by
      cases copyFail with
      | true => simp [copyObjectOp] at hcopy
      | false =>
        rw [copyObjectOp, if_neg (by simp), hv] at hcopy
        exact (Except.ok.inj hcopy).symm
    refine ⟨?_, ?_, ?_⟩
    · simp [rename, hcopy, deleteObjectOp]
    · rw [hst1]
      exact storeLookup_storeSet_same_value st oldFileKey newFileKey v hv
    · rw [hst1]
      simp [storeSet, storeLookup]

/-- Witness for C5's delete-fails branch: bucket `b`, store holding
`old.txt`, successful copy, failing delete. -/
theorem rename_copy_then_delete_witness :
    rename "b" false true [("old.txt", 7)] "old.txt" "new.txt" =
      (storeSet [("old.txt", 7)] "new.txt" 7,
        ⟨.writes [.httpError "delete failed" 500],
          [.copyObject ("b" ++ "/" ++ "old.txt") "new.txt",
            .deleteObject "old.txt"]⟩) ∧
    storeLookup (storeSet [("old.txt", 7)] "new.txt" 7) "old.txt" = some 7 ∧
    storeLookup (storeSet [("old.txt", 7)] "new.txt" 7) "new.txt" = some 7 :=
  (rename_copy_then_delete "b" "old.txt" "new.txt" [("old.txt", 7)]).2 false
    (storeSet [("old.txt", 7)] "new.txt" 7) 7 (by rfl) (by decide)

/-- Inserting a part with a present part number into a list of parts with
present part numbers succeeds, and every part of the result has a present
part number. -/
theorem orderedInsertP_all_isSome (p : DecodedPart) :
    ∀ qs : List DecodedPart, p.partNumber.isSome →
      (∀ q ∈ qs, q.partNumber.isSome) →
      ∃ rs, orderedInsertP p qs = .ok rs ∧ ∀ r ∈ rs, r.partNumber.isSome := by
  intro qs
  induction qs with
  | nil =>
    intro hp _
    exact ⟨[p], rfl, by simpa using hp⟩
  | cons q qs ih =>
    intro hp hq
    obtain ⟨pn, hpn⟩ := Option.isSome_iff_exists.mp hp
    obtain ⟨qn, hqn⟩ := Option.isSome_iff_exists.mp (hq q (List.mem_cons_self q qs))
    by_cases hle : pn ≤ qn
    · refine ⟨p :: q :: qs, ?_, ?_⟩
      · simp [orderedInsertP, derefPartNumber, hpn, hqn, hle]
      · intro r hr
        rcases List.mem_cons.mp hr with rfl | hr
        · exact hp
        · exact hq r hr
    · obtain ⟨rs, hrs, hall⟩ := ih hp (fun r hr => hq r (List.mem_cons_of_mem q hr))
      refine ⟨q :: rs, ?_, ?_⟩
      · simp [orderedInsertP, derefPartNumber, hpn, hqn, hle, hrs]
      · intro r hr
        rcases List.mem_cons.mp hr with rfl | hr
        · exact hq r (List.mem_cons_self r qs)
        · exact hall r hr

/-- Sorting parts all of whose part numbers are present performs no nil
dereference: it succeeds, and the result again has all part numbers
present. -/
theorem insertionSortP_all_isSome :
    ∀ parts : List DecodedPart, (∀ p ∈ parts, p.partNumber.isSome) →
      ∃ sorted, insertionSortP parts = .ok sorted ∧
        ∀ p ∈ sorted, p.partNumber.isSome := by
  intro parts
  induction parts with
  | nil => intro _; exact ⟨[], rfl, by simp⟩
  | cons p rest ih =>
    intro hall
    obtain ⟨sorted, hsort, hsall⟩ :=
      ih (fun q hq => hall q (List.mem_cons_of_mem p hq))
    obtain ⟨rs, hins, hrall⟩ :=
      orderedInsertP_all_isSome p sorted (hall p (List.mem_cons_self p rest)) hsall
    exact ⟨rs, by simp [insertionSortP, hsort, hins], hrall⟩

/-- A comparison against a part whose part number is nil (either side)
panics the insertion. -/
theorem orderedInsertP_nil_head (p q : DecodedPart) (qs : List DecodedPart)
    (h : p.partNumber = none ∨ q.partNumber = none) :
    ∃ e, orderedInsertP p (q :: qs) = .error e := by
  refine ⟨"runtime error: invalid memory address or nil pointer dereference", ?_⟩
  rcases h with hp | hq
  · simp [orderedInsertP, derefPartNumber, hp]
  · cases hp : p.partNumber with
    | none => simp [orderedInsertP, derefPartNumber, hp]
    | some pn => simp [orderedInsertP, derefPartNumber, hp, hq]

/-- A successful insertion lengthens the list by one. -/
theorem orderedInsertP_ok_length (p : DecodedPart) :
    ∀ (qs rs : List DecodedPart), orderedInsertP p qs = .ok rs →
      rs.length = qs.length + 1 := by
  intro qs
  induction qs with
  | nil =>
    intro rs h
    simp [orderedInsertP] at h
    simp [← h]
  | cons q qs ih =>
    intro rs h
    rw [orderedInsertP] at h
    cases hp : derefPartNumber p with
    | error e => rw [hp] at h; simp at h
    | ok pn =>
      cases hq : derefPartNumber q with
      | error e => rw [hp, hq] at h; simp at h
      | ok qn =>
        rw [hp, hq] at h
        by_cases hle : pn ≤ qn
        · simp [hle] at h
          simp [← h]
        · simp [hle] at h
          cases hrec : orderedInsertP p qs with
          | error e => rw [hrec] at h; simp at h
          | ok rest =>
            rw [hrec] at h
            simp at h
            simp [← h, ih rest hrec]

/-- A successful pointer-level sort preserves the length. -/
theorem insertionSortP_ok_length :
    ∀ parts sorted : List DecodedPart, insertionSortP parts = .ok sorted →
      sorted.length = parts.length := by
  intro parts
  induction parts with
  | nil =>
    intro sorted h
    simp [insertionSortP] at h
    simp [← h]
  | cons p rest ih =>
    intro sorted h
    rw [insertionSortP] at h
    cases hrest : insertionSortP rest with
    | error e => rw [hrest] at h; simp at h
    | ok s =>
      rw [hrest] at h
      simp [orderedInsertP_ok_length p s sorted h, ih s hrest]

/-- Sorting at least two parts of which some part number is nil panics:
every element of a list of length at least two takes part in at least one
comparison, which dereferences it. -/
theorem insertionSortP_nil_panics :
    ∀ parts : List DecodedPart, 2 ≤ parts.length →
      (∃ q ∈ parts, q.partNumber = none) →
      ∃ e, insertionSortP parts = .error e := by
  intro parts
  induction parts with
  | nil => intro h; simp at h
  | cons p rest ih =>
    rintro hlen ⟨q, hq, hqn⟩
    cases hrest : insertionSortP rest with
    | error e => exact ⟨e, by simp [insertionSortP, hrest]⟩
    | ok sorted =>
      have hslen : sorted.length = rest.length :=
        insertionSortP_ok_length rest sorted hrest
      have hrlen : 1 ≤ rest.length := by
        simp at hlen
        omega
      obtain ⟨s, ss, hss⟩ : ∃ s ss, sorted = s :: ss := by
        cases hsorted : sorted with
        | nil => rw [hsorted] at hslen; simp at hslen; omega
        | cons s ss => exact ⟨s, ss, rfl⟩
      rcases List.mem_cons.mp hq with heq | hq
      · -- the nil part is the head being inserted
        obtain ⟨e, he⟩ := orderedInsertP_nil_head p s ss (Or.inl (heq ▸ hqn))
        exact ⟨e, by simp [insertionSortP, hrest, hss, he]⟩
      · -- the nil part is inside the tail
        by_cases h2 : 2 ≤ rest.length
        · obtain ⟨e, he⟩ := ih h2 ⟨q, hq, hqn⟩
          rw [hrest] at he
          simp at he
        · have h1 : rest.length = 1 := by omega
          obtain ⟨r, hr⟩ := List.length_eq_one.mp h1
          rw [hr] at hq
          simp at hq
          subst hq
          have hsorted1 : insertionSortP rest = .ok [q] := by
            rw [hr]
            rfl
          rw [hrest] at hsorted1
          have hs : sorted = [q] := by
            exact (Except.ok.inj hsorted1)
          rw [hs] at hss
          obtain ⟨e, he⟩ :=
            orderedInsertP_nil_head p q [] (Or.inr hqn)
          refine ⟨e, ?_⟩
          simp [insertionSortP, hrest, hs, he]

/-- C7 amended: every handler invocation writes exactly one response —
either one success envelope or one error — except two panic paths that
write no response: the Part URL Issuer panics when the decoded `parts`
value is negative (`make` with negative length, line 83), and the Upload
Finalizer panics when the decoded parts list has at least two entries and
some entry lacks a part number (nil `*int32` dereference in the sort
comparator, line 129). -/
theorem handlers_write_one_response :
    (∀ (createResult : Except String (String × String)) (body : Option InitiateBody),
      ∃ w, (initiateMultipartUpload createResult body).outcome = .writes [w]) ∧
    (∀ (presign : Int → Except String String) (body : Option GenerateBody),
      (∀ b, body = some b → 0 ≤ b.parts) →
      ∃ w, (generatePresignedUrl presign body).outcome = .writes [w]) ∧
    (∀ (completeResult : Except String Unit) (headResult : Except String Int)
        (body : Option CompleteBodyP),
      (∀ b, body = some b →
        b.parts.length ≤ 1 ∨ ∀ p ∈ b.parts, p.partNumber.isSome) →
      ∃ w, (completeMultipartUploadP completeResult headResult body).outcome =
        .writes [w]) ∧
    (∀ (completeResult : Except String Unit) (headResult : Except String Int)
        (fileKey fileId : String) (parts : List DecodedPart),
      2 ≤ parts.length → (∃ q ∈ parts, q.partNumber = none) →
      ∃ e, (completeMultipartUploadP completeResult headResult
        (some ⟨fileKey, fileId, parts⟩)).outcome = .goPanic e) ∧
    (∀ (listResult : Except String (List S3Object)) (pfx delimiter : String),
      ∃ w, (listDocuments listResult pfx delimiter).outcome = .writes [w]) ∧
    (∀ (deleteResult : Except String Unit) (fileKey : String),
      ∃ w, (removeDocument deleteResult fileKey).outcome = .writes [w]) ∧
    (∀ (bucket : String) (copyFail deleteFail : Bool) (st : Store)
        (oldFileKey newFileKey : String),
      ∃ w, (rename bucket copyFail deleteFail st oldFileKey newFileKey).2.outcome =
        .writes [w]) ∧
    (∀ (presignResult : Except String String) (fileKey expiresInStr : String),
      ∃ w, (share presignResult fileKey expiresInStr).outcome = .writes [w]) := by
  refine ⟨?_, ?_, ?_, ?_, ?_, ?_, ?_, ?_⟩
  · intro cr body
    cases cr with
    | error e => exact ⟨_, rfl⟩
    | ok p => obtain ⟨uploadId, key⟩ := p; exact ⟨_, rfl⟩
  · intro presign body hbody
    cases body with
    | none => exact ⟨_, rfl⟩
    | some b =>
      have h0 : 0 ≤ b.parts := hbody b rfl
      have hnneg : ¬ b.parts < 0 := by omega
      rcases hres : presignFrom presign b.fileKey b.fileId 1 b.parts.toNat with ⟨cs, r⟩
      cases r with
      | error e =>
        exact ⟨.httpError ("Failed to generate presigned URL: " ++ e) 500,
          by simp [generatePresignedUrl, hnneg, hres]⟩
      | ok us =>
        exact ⟨.apiResponse 200 (.signedUrls us),
          by simp [generatePresignedUrl, hnneg, hres]⟩
  · intro cr hr body hbody
    obtain ⟨sorted, hsort⟩ :
        ∃ sorted, insertionSortP (body.getD ⟨"", "", []⟩).parts = .ok sorted := by
      cases body with
      | none => exact ⟨[], rfl⟩
      | some b =>
        rcases hbody b rfl with hlen | hsome
        · rcases hp : b.parts with _ | ⟨x, _ | ⟨y, t⟩⟩
          · exact ⟨[], by simp [hp, insertionSortP]⟩
          · exact ⟨[x], by simp [hp, insertionSortP, orderedInsertP]⟩
          · rw [hp] at hlen; simp at hlen
        · obtain ⟨sorted, hs, _⟩ := insertionSortP_all_isSome b.parts hsome
          exact ⟨sorted, by simpa using hs⟩
    cases cr with
    | error e =>
      exact ⟨.httpError e 500, by simp [completeMultipartUploadP, hsort]⟩
    | ok u =>
      cases hr with
      | error e =>
        exact ⟨.httpError e 500, by simp [completeMultipartUploadP, hsort]⟩
      | ok size =>
        exact ⟨.apiResponse 200 (.completed (body.getD ⟨"", "", []⟩).fileKey size),
          by simp [completeMultipartUploadP, hsort]⟩
  · intro cr hr fileKey fileId parts h2 hnone
    obtain ⟨e, he⟩ := insertionSortP_nil_panics parts h2 hnone
    exact ⟨e, by simp [completeMultipartUploadP, he]⟩
  · intro lr pfx delimiter
    cases lr <;> exact ⟨_, rfl⟩
  · intro dr fileKey
    cases dr <;> exact ⟨_, rfl⟩
  · intro bucket copyFail deleteFail st oldFileKey newFileKey
    rcases hc : copyObjectOp copyFail st oldFileKey newFileKey with e | st1
    · exact ⟨.httpError e 500, by simp [rename, hc]⟩
    · rcases hd : deleteObjectOp deleteFail st1 oldFileKey with e | st2
      · exact ⟨.httpError e 500, by simp [rename, hc, hd]⟩
      · exact ⟨.apiResponse 200 (.boolean true), by simp [rename, hc, hd]⟩
  · intro pr fileKey expiresInStr
    by_cases hk : fileKey = ""
    · exact ⟨.httpError "fileKey is required" 400, by simp [share, hk]⟩
    · cases hn : atoi expiresInStr with
      | none =>
        exact ⟨.httpError "Invalid or missing expiresIn parameter" 400,
          by simp [share, hk, hn]⟩
      | some n =>
        by_cases hle : n ≤ 0
        · exact ⟨.httpError "Invalid or missing expiresIn parameter" 400,
            by simp [share, hk, hn, hle]⟩
        · cases pr with
          | error e =>
            exact ⟨.httpError ("Failed to generate presigned URL: " ++ e) 500,
              by simp [share, hk, hn, hle]⟩
          | ok u =>
            exact ⟨.apiResponse 200 (.url u), by simp [share, hk, hn, hle]⟩

/-- Witness for C7's amended statement: the issuer with a non-negative
`parts` value writes a single response; the pointer-level finalizer writes
a single response on well-formed parts and panics when two parts lack
their part numbers. -/
theorem handlers_write_one_response_witness :
    (∃ w, (generatePresignedUrl (fun _ => .ok "u")
      (some ⟨"k", "i", 1⟩)).outcome = .writes [w]) ∧
    (∃ w, (completeMultipartUploadP (.ok ()) (.ok 5)
      (some ⟨"k", "i", [⟨some "e1", some 2⟩, ⟨some "e2", some 1⟩]⟩)).outcome =
        .writes [w]) ∧
    (∃ e, (completeMultipartUploadP (.ok ()) (.ok 5)
      (some ⟨"k", "i", [⟨none, none⟩, ⟨none, none⟩]⟩)).outcome = .goPanic e) :=
  ⟨handlers_write_one_response.2.1 (fun _ => .ok "u") (some ⟨"k", "i", 1⟩)
      (fun b hb => by injection hb with h; rw [← h]; decide),
    handlers_write_one_response.2.2.1 (.ok ()) (.ok 5)
      (some ⟨"k", "i", [⟨some "e1", some 2⟩, ⟨some "e2", some 1⟩]⟩)
      (fun b hb => by injection hb with h; rw [← h]; right; decide),
    handlers_write_one_response.2.2.2.1 (.ok ()) (.ok 5) "k" "i"
      [⟨none, none⟩, ⟨none, none⟩] (by decide) ⟨⟨none, none⟩, by decide, rfl⟩⟩

/-- C8: when the completion backend call succeeds, the Finalizer issues a
follow-up `HeadObject` size query for the same key; if the query fails the
whole request is reported as a 500 failure even though completion succeeded,
and if it succeeds the success payload is `{key, size}` with the queried
size. -/
theorem finalizer_head_after_completion (headResult : Except String Int)
    (fileKey fileId : String) (parts : List CompletedPart) :
    (completeMultipartUpload (.ok ()) headResult
        (some ⟨fileKey, fileId, parts⟩)).calls =
      [.completeMultipartUpload fileKey fileId
          ((sortParts parts).map (fun p => ⟨p.eTag, p.partNumber⟩)),
        .headObject fileKey] ∧
    (∀ e, headResult = .error e →
      (completeMultipartUpload (.ok ()) headResult
          (some ⟨fileKey, fileId, parts⟩)).outcome =
        .writes [.httpError e 500]) ∧
    (∀ size, headResult = .ok size →
      (completeMultipartUpload (.ok ()) headResult
          (some ⟨fileKey, fileId, parts⟩)).outcome =
        .writes [.apiResponse 200 (.completed fileKey size)]) := by
  refine ⟨?_, ?_, ?_⟩
  · cases headResult <;> rfl
  · intro e he; subst he; rfl
  · intro size hs; subst hs; rfl

/-- Witness for C8: completion succeeded, the size query returned 5, and the
success payload reports that size for the key. -/
theorem finalizer_head_after_completion_witness :
    (completeMultipartUpload (.ok ()) (.ok 5) (some ⟨"k", "i", []⟩)).outcome =
      .writes [.apiResponse 200 (.completed "k" 5)] :=
  (finalizer_head_after_completion (.ok 5) "k" "i" []).2.2 5 rfl

end GoAws
